import Mathlib

/-!
# A shallow embedding of `MaterializedQueryResult`

This file embeds the result-materialization layer of the repository
(`src/main/materialized_query_result.cpp` together with its header
`duckdb/main/materialized_query_result.hpp`) into Lean and proves the
spec's testable properties about it.

Modelling conventions:

* The external collaborators (the dynamic `Value`, the buffered
  `ColumnDataCollection` row store and its scan cursor, and the
  `QueryResult` base-class error accessors) are not part of the two
  source files; they are modelled from the spec's description of their
  contracts (§6 of the spec) and marked `Modelled from the spec:`.
* Stateful member functions become explicit state-passing functions
  `MaterializedQueryResult → Except QErr (α × MaterializedQueryResult)`.
* A thrown `InvalidInputException` / `InternalException` becomes
  `Except.error (.invalidInput msg)` / `Except.error (.internal msg)`.
* Dereferencing a null `unique_ptr` is undefined behavior in the C++
  source; it is modelled as the distinct outcome `Except.error .nullDeref`
  so that a crash is provably not an exception of either kind.
* Machine numerics are modelled by `Int` (all integer logical types carry
  their mathematical value) and `Rat` (float/double/decimal carry their
  numeric value; the "best-effort floating conversion" is modelled as the
  exact value).  No claim in scope depends on rounding.
-/

namespace DuckDB

/-- Modelled from the spec: the logical type tag enumeration of the external
dynamic `Value` (`LogicalTypeId`).  Only the tags that the source's
`getContents` switch distinguishes are named; every other tag is collapsed
into the representative `OTHER` (the switch's `default:` branch treats all
of them alike). -/
inductive LogicalTypeId where
  | BOOLEAN
  | TINYINT
  | SMALLINT
  | INTEGER
  | BIGINT
  | UTINYINT
  | USMALLINT
  | UINTEGER
  | UBIGINT
  | FLOAT
  | DOUBLE
  | DECIMAL
  | VARCHAR
  | OTHER
  deriving DecidableEq

/-- Modelled from the spec: the payload of a dynamic `Value` — either null or
a scalar of one of the shapes the narrowing accessors can extract. -/
inductive ValuePayload where
  | pnull
  | pbool (b : Bool)
  | pint (i : Int)
  | pnum (q : Rat)
  | pstr (s : String)
  deriving DecidableEq

/-- Modelled from the spec: the external type-tagged dynamic `Value` (§2,
"Dynamic Value"): it can report its logical type tag, test nullness, and be
narrowed to a native representation or textual form. -/
structure Value where
  tag : LogicalTypeId
  payload : ValuePayload
  deriving DecidableEq

/-- Modelled from the spec: `Value::IsNull()`, the null test. -/
def Value.IsNull (v : Value) : Bool :=
  match v.payload with
  | .pnull => true
  | _ => false

/-- Modelled from the spec: `Value::GetValue<bool>()`, the boolean narrowing
accessor.  The source only applies it to `BOOLEAN`-tagged values. -/
def Value.getBool (v : Value) : Bool :=
  match v.payload with
  | .pbool b => b
  | _ => false

/-- Modelled from the spec: the integer narrowing accessors
(`Value::GetValue<int64_t>` and friends).  All integer logical types carry
their mathematical value, so every integer narrowing that the source
performs on a matching tag returns that value.  Non-integer payloads take
the 64-bit-signed path's conversion: booleans become 0/1, numerics are
truncated, text and null become 0. -/
def Value.getInt64 (v : Value) : Int :=
  match v.payload with
  | .pint i => i
  | .pbool b => if b then 1 else 0
  | .pnum q => q.num / (q.den : Int)
  | .pstr _ => 0
  | .pnull => 0

/-- Modelled from the spec: `Value::GetValue<uint64_t>()`; the source only
applies it to `UBIGINT`-tagged values, whose payload is the carried
integer. -/
def Value.getUInt64 (v : Value) : Int := v.getInt64

/-- Modelled from the spec: `Value::GetValue<int>()` (native signed integer);
the source only applies it to signed 32/16/8-bit and unsigned 16/8-bit
tags, all of whose values fit the native int losslessly. -/
def Value.getIntNative (v : Value) : Int := v.getInt64

/-- Modelled from the spec: `Value::GetValue<uint32_t>()`; the source only
applies it to `UINTEGER`-tagged values. -/
def Value.getUInt32 (v : Value) : Int := v.getInt64

/-- Modelled from the spec: `Value::GetValue<double>()`; the source only
applies it to `FLOAT`/`DOUBLE`/`DECIMAL`-tagged values, modelled as the
carried numeric (best-effort floating conversion, made exact here). -/
def Value.getDouble (v : Value) : Rat :=
  match v.payload with
  | .pnum q => q
  | .pint i => (i : Rat)
  | .pbool b => if b then 1 else 0
  | _ => 0

/-- Modelled from the spec: `Value::GetValue<std::string>()`; the source only
applies it to `VARCHAR`-tagged values. -/
def Value.getString (v : Value) : String :=
  match v.payload with
  | .pstr s => s
  | _ => ""

/-- Modelled from the spec: `Value::ToString()`, the textual rendering
fallback.  Any deterministic rendering satisfies the contract; the claims
in scope never constrain its exact output. -/
def Value.render (v : Value) : String :=
  match v.payload with
  | .pnull => "NULL"
  | .pbool b => if b then "true" else "false"
  | .pint i => toString i
  | .pnum q => toString q.num ++ "/" ++ toString q.den
  | .pstr s => s

/-- A row of the buffered row store: one dynamic value per column. -/
abbrev Row := List Value

/-- Modelled from the spec: `Value` produced by an out-of-range row-view
access.  All claims in scope only exercise in-range accesses, where this
default is never consulted. -/
def outOfRangeValue : Value := ⟨.OTHER, .pnull⟩

/-- Modelled from the spec: `row.GetValue(col_idx)` on the external row
view. -/
def rowGet (row : Row) (c : Nat) : Value := row.getD c outOfRangeValue

/-- Modelled from the spec: `ColumnDataRowCollection::GetValue(column, index)`
— the cell of row `index` at column `column` of the random-access row
view. -/
def rowsGetValue (rows : List Row) (column index : Nat) : Value :=
  rowGet (rows.getD index []) column

/-- Modelled from the spec: the external buffered columnar row store
(`ColumnDataCollection`, §2 "Buffered Row Store").  It holds the full
result set, already partitioned into its natural scan batches
(`chunks`); it exposes row count, column count, column types, a chunked
scan cursor and an on-demand row view. -/
structure ColumnDataCollection where
  types : List LogicalTypeId
  chunks : List (List Row)
  deriving DecidableEq

/-- Modelled from the spec: `ColumnDataCollection::Rows()` — the row view
over the full row set, i.e. the scan batches concatenated in order. -/
def ColumnDataCollection.Rows (c : ColumnDataCollection) : List Row :=
  c.chunks.flatten

/-- Modelled from the spec: `ColumnDataCollection::GetRows()` — same row
view as `Rows()`, used by `GetValue` to build the cached random-access
collection. -/
def ColumnDataCollection.GetRows (c : ColumnDataCollection) : List Row :=
  c.Rows

/-- Modelled from the spec: `ColumnDataCollection::Count()`, the number of
rows in the store. -/
def ColumnDataCollection.Count (c : ColumnDataCollection) : Nat :=
  c.Rows.length

/-- Modelled from the spec: `ColumnDataCollection::ColumnCount()`. -/
def ColumnDataCollection.ColumnCount (c : ColumnDataCollection) : Nat :=
  c.types.length

/-- Modelled from the spec: the scan cursor state
(`ColumnDataScanState`) — the position of the next batch to deliver. -/
structure ColumnDataScanState where
  chunk_index : Nat
  deriving DecidableEq

/-- Modelled from the spec: `ColumnDataCollection::Scan(state, chunk)` — the
cursor-driven scan.  Each call delivers the next natural batch and
advances the cursor; once the store is exhausted it delivers a batch of
size zero and leaves the cursor in place (§4.2). -/
def ColumnDataCollection.Scan (c : ColumnDataCollection)
    (s : ColumnDataScanState) : List Row × ColumnDataScanState :=
  match c.chunks[s.chunk_index]? with
  | some ch => (ch, ⟨s.chunk_index + 1⟩)
  | none => ([], s)

/-- The closed set of tagged variants produced by `getContents`.  The source
declares `Base` with one derived record per kind (`BoolData`, `IntData`,
`UIntData`, `BigIntData`, `UBigIntData`, `DoubleData`, `StringData`); per
the spec's design note (§9) the hierarchy is embedded as a closed sum type
and the per-variant debug `id` fields (13/30/14/31/23/25/13), which no
operation reads, are not preserved. -/
inductive Base where
  | BoolData (value : Bool)
  | IntData (value : Int)
  | UIntData (value : Int)
  | BigIntData (value : Int)
  | UBigIntData (value : Int)
  | DoubleData (value : Rat)
  | StringData (value : String)
  deriving DecidableEq

/-- The failure outcomes of the embedded operations: the two exception kinds
the source raises, plus the crash outcome of dereferencing a null
`unique_ptr` (undefined behavior in C++, kept distinct here). -/
inductive QErr where
  | invalidInput (msg : String)
  | internal (msg : String)
  | nullDeref
  deriving DecidableEq

/-- Decidable equality of operation outcomes, so that concrete runs of the
embedded operations can be checked by `decide`. -/
instance {ε α : Type} [DecidableEq ε] [DecidableEq α] :
    DecidableEq (Except ε α) := fun a b =>
  match a, b with
  | .ok x, .ok y =>
    match decEq x y with
    | .isTrue h => .isTrue (h ▸ rfl)
    | .isFalse h => .isFalse (fun hh => h (Except.ok.inj hh))
  | .error e, .error f =>
    match decEq e f with
    | .isTrue h => .isTrue (h ▸ rfl)
    | .isFalse h => .isFalse (fun hh => h (Except.error.inj hh))
  | .ok _, .error _ => .isFalse (fun hh => Except.noConfusion hh)
  | .error _, .ok _ => .isFalse (fun hh => Except.noConfusion hh)

/-- The result object (`MaterializedQueryResult`), fields as in the header:
the base-class success flag and error text, column names and types, the
exclusively owned row store (`collection`, absent on the error path or
after transfer), the lazily built random-access row view
(`row_collection`), and the scan cursor with its started flag. -/
structure MaterializedQueryResult where
  success : Bool
  error : String
  names : List String
  types : List LogicalTypeId
  collection : Option ColumnDataCollection
  row_collection : Option (List Row)
  scan_state : ColumnDataScanState
  scan_initialized : Bool
  deriving DecidableEq

/-- The success constructor: wraps a populated row store; column types are
taken from the store (`collection_p->Types()`); the scan is not yet
started. -/
def mkSuccess (names : List String) (coll : ColumnDataCollection) :
    MaterializedQueryResult :=
  { success := true
    error := ""
    names := names
    types := coll.types
    collection := some coll
    row_collection := none
    scan_state := ⟨0⟩
    scan_initialized := false }

/-- The error constructor `MaterializedQueryResult(ErrorData error)`: no row
store, no column data, `success = false`. -/
def mkError (e : String) : MaterializedQueryResult :=
  { success := false
    error := e
    names := []
    types := []
    collection := none
    row_collection := none
    scan_state := ⟨0⟩
    scan_initialized := false }

/-- Modelled from the spec: `BaseQueryResult::HasError()`, a pure accessor
over the error state (§4.1). -/
def MaterializedQueryResult.HasError (r : MaterializedQueryResult) : Bool :=
  !r.success

/-- Modelled from the spec: `BaseQueryResult::GetError()`, a pure accessor
returning the error text. -/
def MaterializedQueryResult.GetError (r : MaterializedQueryResult) : String :=
  r.error

/-- The message of the `InvalidInputException` raised by `Collection()` and
`TakeCollection()` on an error result (format string applied to
`GetError()`). -/
def collectionErrorMsg (e : String) : String :=
  "Attempting to get collection from an unsuccessful query result\n: Error " ++ e

/-- The message of the `InternalException` raised when the row store is
absent from a successful result. -/
def missingCollectionMsg : String :=
  "Missing collection from materialized query result"

/-- `MaterializedQueryResult::Collection()`: invalid-input on an error
result (message surfacing the error text), internal error if the store is
absent, otherwise the store. -/
def MaterializedQueryResult.Collection (r : MaterializedQueryResult) :
    Except QErr ColumnDataCollection :=
  if r.HasError then
    .error (.invalidInput (collectionErrorMsg r.GetError))
  else
    match r.collection with
    | none => .error (.internal missingCollectionMsg)
    | some c => .ok c

/-- `MaterializedQueryResult::TakeCollection()`: same preconditions as
`Collection()`, then moves the store out, leaving `collection` null. -/
def MaterializedQueryResult.TakeCollection (r : MaterializedQueryResult) :
    Except QErr (ColumnDataCollection × MaterializedQueryResult) :=
  if r.HasError then
    .error (.invalidInput (collectionErrorMsg r.GetError))
  else
    match r.collection with
    | none => .error (.internal missingCollectionMsg)
    | some c => .ok (c, { r with collection := none })

/-- `MaterializedQueryResult::GetValue(column, index)` as written in the
source: if the random-access row view has not been built, it is built from
`collection->GetRows()` — note that the source dereferences the
`collection` pointer directly, with no `HasError()` or null check — and
cached; the cell is then read from the (possibly pre-existing) cached
view. -/
def MaterializedQueryResult.GetValue (r : MaterializedQueryResult)
    (column index : Nat) :
    Except QErr (Value × MaterializedQueryResult) :=
  match r.row_collection with
  | some rc => .ok (rowsGetValue rc column index, r)
  | none =>
    match r.collection with
    | none => .error .nullDeref
    | some coll =>
      let rc := coll.GetRows
      .ok (rowsGetValue rc column index, { r with row_collection := some rc })

/-- `MaterializedQueryResult::RowCount()`: the store's count when present,
otherwise 0 (the null-conditional `collection ? collection->Count() : 0`). -/
def MaterializedQueryResult.RowCount (r : MaterializedQueryResult) : Nat :=
  match r.collection with
  | some c => c.Count
  | none => 0

/-- The message of the `InvalidInputException` raised by `FetchRaw()` on an
error result. -/
def fetchErrorMsg (e : String) : String :=
  "Attempting to fetch from an unsuccessful query result\nError: " ++ e

/-- `MaterializedQueryResult::FetchRaw()`: invalid-input on an error result;
otherwise dereferences the store (crash if absent), initializes the scan
cursor on the first call only (disallow-zero-copy policy), scans the next
batch, and returns null once a batch of size zero is produced. -/
def MaterializedQueryResult.FetchRaw (r : MaterializedQueryResult) :
    Except QErr (Option (List Row) × MaterializedQueryResult) :=
  if r.HasError then
    .error (.invalidInput (fetchErrorMsg r.GetError))
  else
    match r.collection with
    | none => .error .nullDeref
    | some coll =>
      let st := if r.scan_initialized then r.scan_state
                else (⟨0⟩ : ColumnDataScanState)
      let step := coll.Scan st
      let r2 := { r with scan_initialized := true, scan_state := step.2 }
      if step.1.length = 0 then .ok (none, r2) else .ok (some step.1, r2)

/-- `MaterializedQueryResult::Fetch()`: a thin alias for `FetchRaw()`. -/
def MaterializedQueryResult.Fetch (r : MaterializedQueryResult) :
    Except QErr (Option (List Row) × MaterializedQueryResult) :=
  r.FetchRaw

/-- The per-cell body of `getContents`' inner loop: the null check followed
by the source's switch on `val.type().id()` — exact tags for
boolean/64-bit paths, the grouped narrow-integer cases, the grouped
floating cases, text, and the `default:` textual-rendering fallback.  A
null cell pushes the null placeholder (an absent slot). -/
def convertCell (val : Value) : Option Base :=
  if !val.IsNull then
    some (match val.tag with
      | .BOOLEAN => Base.BoolData val.getBool
      | .BIGINT => Base.BigIntData val.getInt64
      | .UBIGINT => Base.UBigIntData val.getUInt64
      | .INTEGER | .SMALLINT | .TINYINT | .USMALLINT | .UTINYINT =>
        Base.IntData val.getIntNative
      | .UINTEGER => Base.UIntData val.getUInt32
      | .DOUBLE | .FLOAT | .DECIMAL => Base.DoubleData val.getDouble
      | .VARCHAR => Base.StringData val.getString
      | _ => Base.StringData val.render)
  else
    none

/-- `MaterializedQueryResult::getContents()`: returns an empty matrix if the
result was unsuccessful; otherwise obtains the store via `Collection()`
(internal error if absent) and builds, for each row of the row view and
each column index below `ColumnCount()`, the slot `convertCell` produces
for that cell.  `getContents` does not mutate the result object, so it is
embedded as a pure function of the state. -/
def MaterializedQueryResult.getContents (r : MaterializedQueryResult) :
    Except QErr (List (List (Option Base))) :=
  if !r.success then
    .ok []
  else
    match r.Collection with
    | .error e => .error e
    | .ok coll =>
      .ok (coll.Rows.map (fun row =>
        (List.range coll.ColumnCount).map (fun col_idx =>
          convertCell (rowGet row col_idx))))

/-- Modelled from the spec: `QueryResult::HeaderToString()` from the base
class (external formatting of column names/types, §4.5); the claims in
scope never constrain its exact output. -/
def HeaderToString (names : List String) (types : List LogicalTypeId) :
    String :=
  String.intercalate "\t" names ++ "\n" ++ toString types.length ++ "\n"

/-- One rendered row of `ToString()`'s success path: cells tab-separated,
null rendered as `NULL`, embedded NUL bytes escaped to `\0`. -/
def rowToLine (ncols : Nat) (row : Row) : String :=
  String.intercalate "\t" ((List.range ncols).map (fun col_idx =>
    let val := rowGet row col_idx
    if val.IsNull then "NULL"
    else String.replace val.render (String.mk [Char.ofNat 0]) "\\0"))

/-- `MaterializedQueryResult::ToString()`: on a success result renders the
header, a row-count summary (note the source dereferences `collection`
directly for `Count()` before calling `Collection()`), then each row on
its own line and a trailing newline; on an error result returns
`GetError() + "\n"`. -/
def MaterializedQueryResult.ToString (r : MaterializedQueryResult) :
    Except QErr String :=
  if r.success then
    match r.collection with
    | none => .error .nullDeref
    | some coll0 =>
      let counted := HeaderToString r.names r.types ++
        "[ Rows: " ++ toString coll0.Count ++ "]\n"
      match r.Collection with
      | .error e => .error e
      | .ok coll =>
        .ok ((coll.Rows.foldl
          (fun acc row => acc ++ rowToLine coll.ColumnCount row ++ "\n")
          counted) ++ "\n")
  else
    .ok (r.GetError ++ "\n")

/-- The templated convenience accessor `GetValue<T>(column, index)` from the
header: it calls the untyped `GetValue`, narrows the returned dynamic
value through the signed 64-bit intermediate (`value.GetValue<int64_t>()`)
and casts the intermediate to `T`.  The C++ cast `(T)` is embedded as an
arbitrary function `cast : Int → α`. -/
def MaterializedQueryResult.GetValueTyped {α : Type}
    (cast : Int → α) (r : MaterializedQueryResult) (column index : Nat) :
    Except QErr (α × MaterializedQueryResult) :=
  match r.GetValue column index with
  | .ok p => .ok (cast p.1.getInt64, p.2)
  | .error e => .error e

/-- The trace of `n` successive `FetchRaw()` calls: the list of delivered
batches (`none` = the end-of-stream null) and the final state.  A failing
call ends the trace early, so a trace of full length `n` certifies that no
call raised an error. -/
def fetchN : MaterializedQueryResult → Nat →
    List (Option (List Row)) × MaterializedQueryResult
  | r, 0 => ([], r)
  | r, n + 1 =>
    match r.FetchRaw with
    | .ok (b, r2) =>
      let p := fetchN r2 n
      (b :: p.1, p.2)
    | .error _ => ([], r)

/-- The cell conversion exactly as the spec's §4.4 table states it: first
match on the logical type wins — boolean, then signed 64-bit, then
unsigned 64-bit, then the narrow integers, then unsigned 32-bit, then
float/double/decimal, then text, then the textual-rendering fallback; a
null cell gives an absent slot. -/
def specConvertCell (val : Value) : Option Base :=
  if val.IsNull then none
  else some (
    if val.tag = .BOOLEAN then Base.BoolData val.getBool
    else if val.tag = .BIGINT then Base.BigIntData val.getInt64
    else if val.tag = .UBIGINT then Base.UBigIntData val.getUInt64
    else if val.tag = .INTEGER ∨ val.tag = .SMALLINT ∨ val.tag = .TINYINT ∨
            val.tag = .USMALLINT ∨ val.tag = .UTINYINT then
      Base.IntData val.getIntNative
    else if val.tag = .UINTEGER then Base.UIntData val.getUInt32
    else if val.tag = .FLOAT ∨ val.tag = .DOUBLE ∨ val.tag = .DECIMAL then
      Base.DoubleData val.getDouble
    else if val.tag = .VARCHAR then Base.StringData val.getString
    else Base.StringData val.render)

/-! ## Concrete sample data

Small concrete stores and result objects used to evaluate the embedded
operations at explicit inputs. -/

/-- A one-row, one-column store holding the BIGINT value 42, split into a
single scan batch. -/
def takenColl : ColumnDataCollection :=
  ⟨[.BIGINT], [[[⟨.BIGINT, .pint 42⟩]]]⟩

/-- A fresh successful result over `takenColl`. -/
def takenRes0 : MaterializedQueryResult := mkSuccess ["a"] takenColl

/-- `takenRes0` after its first `GetValue` call: the random-access row view
has been built and cached. -/
def takenRes1 : MaterializedQueryResult :=
  { takenRes0 with row_collection := some takenColl.Rows }

/-- `takenRes1` after `TakeCollection()`: the row store has been moved out,
but the cached row view is still present. -/
def takenRes2 : MaterializedQueryResult :=
  { takenRes1 with collection := none }

/-- A second one-row store, used to exercise `TakeCollection()` on a result
whose row view was never built. -/
def wTakeColl : ColumnDataCollection :=
  ⟨[.VARCHAR], [[[⟨.VARCHAR, .pstr "x"⟩]]]⟩

/-- A fresh successful result over `wTakeColl`. -/
def wTakeRes : MaterializedQueryResult := mkSuccess ["s"] wTakeColl

/-- `wTakeRes` after `TakeCollection()`: no store, no cached row view. -/
def wTakeRes1 : MaterializedQueryResult :=
  { wTakeRes with collection := none }

/-- A two-row store exercising every branch of `getContents`' switch:
boolean, signed/unsigned 64-bit, narrow integer, unsigned 32-bit,
decimal, text, an unlisted tag, and null cells. -/
def contentsColl : ColumnDataCollection :=
  ⟨[.BOOLEAN, .BIGINT, .UBIGINT, .SMALLINT, .UINTEGER, .DECIMAL, .VARCHAR,
      .OTHER],
    [[[⟨.BOOLEAN, .pbool true⟩, ⟨.BIGINT, .pint 42⟩, ⟨.UBIGINT, .pint 9⟩,
        ⟨.SMALLINT, .pint (-3)⟩, ⟨.UINTEGER, .pint 7⟩,
        ⟨.DECIMAL, .pnum ((5 : Rat) / 2)⟩, ⟨.VARCHAR, .pstr "abc"⟩,
        ⟨.OTHER, .pstr "o"⟩]],
      [[⟨.BOOLEAN, .pnull⟩, ⟨.BIGINT, .pnull⟩, ⟨.UBIGINT, .pnull⟩,
        ⟨.SMALLINT, .pnull⟩, ⟨.UINTEGER, .pnull⟩, ⟨.DECIMAL, .pnull⟩,
        ⟨.VARCHAR, .pnull⟩, ⟨.OTHER, .pnull⟩]]]⟩

/-- A fresh successful result over `contentsColl`. -/
def contentsRes : MaterializedQueryResult :=
  mkSuccess ["b", "i8", "u8", "i2", "u4", "d", "s", "o"] contentsColl

/-- A three-row, one-column store split into two scan batches of sizes two
and one. -/
def scanColl : ColumnDataCollection :=
  ⟨[.BIGINT],
    [[[⟨.BIGINT, .pint 1⟩], [⟨.BIGINT, .pint 2⟩]], [[⟨.BIGINT, .pint 3⟩]]]⟩

/-- A fresh successful result over `scanColl`. -/
def scanRes : MaterializedQueryResult := mkSuccess ["n"] scanColl

/-! ## Helper lemmas -/

/-- An error-free result is a successful one. -/
theorem success_of_not_hasError (r : MaterializedQueryResult)
    (h : r.HasError = false) : r.success = true := by
  cases hs : r.success
  · rw [MaterializedQueryResult.HasError, hs] at h
    simp at h
  · rfl

/-- A successful result has no error. -/
theorem hasError_eq_false (r : MaterializedQueryResult)
    (h : r.success = true) : r.HasError = false := by
  rw [MaterializedQueryResult.HasError, h]
  rfl

/-- An error result is an unsuccessful one. -/
theorem success_eq_false (r : MaterializedQueryResult)
    (h : r.HasError = true) : r.success = false := by
  cases hs : r.success
  · rfl
  · rw [MaterializedQueryResult.HasError, hs] at h
    simp at h

/-- Dissection of a successful `TakeCollection()` call: it can only succeed
on a successful result that owns its store, and the post state is the
input with the store moved out. -/
theorem takeCollection_ok (r : MaterializedQueryResult)
    (coll : ColumnDataCollection) (r1 : MaterializedQueryResult)
    (h : r.TakeCollection = .ok (coll, r1)) :
    r.success = true ∧ r.collection = some coll ∧
      r1 = { r with collection := none } := by
  rw [MaterializedQueryResult.TakeCollection] at h
  cases hE : r.HasError with
  | true => rw [hE] at h; simp at h
  | false =>
    rw [hE] at h
    simp only [Bool.false_eq_true, if_false] at h
    cases hc : r.collection with
    | none => rw [hc] at h; simp at h
    | some c =>
      rw [hc] at h
      simp only [Except.ok.injEq, Prod.mk.injEq] at h
      obtain ⟨h1, h2⟩ := h
      subst h1
      exact ⟨success_of_not_hasError r hE, rfl, h2.symm⟩

/-- Reading an in-range element of a mapped list through `getD`. -/
theorem getD_map_of_lt {α β : Type} (f : α → β) (l : List α) (i : Nat)
    (h : i < l.length) (dα : α) (dβ : β) :
    (l.map f).getD i dβ = f (l.getD i dα) := by
  rw [List.getD_eq_getElem?_getD, List.getElem?_map,
    List.getElem?_eq_getElem h, List.getD_eq_getElem?_getD,
    List.getElem?_eq_getElem h]
  rfl

/-- Reading an in-range element of `List.range` through `getD`. -/
theorem getD_range_of_lt (n j : Nat) (h : j < n) :
    (List.range n).getD j 0 = j := by
  rw [List.getD_eq_getElem?_getD, List.getElem?_range h]
  rfl

/-- `getD` at an in-range index is the indexed element. -/
theorem getD_eq_get {α : Type} (l : List α) (i : Nat) (h : i < l.length)
    (d : α) : l.getD i d = l.get ⟨i, h⟩ := by
  rw [List.getD_eq_getElem?_getD, List.getElem?_eq_getElem h]
  rfl

/-- The code's cell conversion agrees with the spec's first-match table. -/
theorem convertCell_eq_spec (val : Value) :
    convertCell val = specConvertCell val := by
  obtain ⟨tg, pl⟩ := val
  cases hn : Value.IsNull ⟨tg, pl⟩ with
  | true => simp [convertCell, specConvertCell, hn]
  | false =>
    cases tg <;> simp [convertCell, specConvertCell, hn]

/-! ## The claims -/

/-- C1: the claim states that on an error result `GetValue(column, index)`
fails with an invalid-input error raised via `Collection()`.  The source's
`GetValue` performs no `HasError()` check and never calls `Collection()`:
on the error-constructed result it dereferences the null `collection`
pointer (`collection->GetRows()`), which is undefined behavior, not an
`InvalidInputException`.  This theorem evaluates the embedded code at the
failing input: the outcome is the null-dereference crash and provably not
an invalid-input error, contradicting the claim (a code bug — §7 of the
spec and the sibling accessors make the invalid-input gating the clear
intent). -/
theorem C1_getValue_on_error_result_crashes (e : String) (c i : Nat) :
    (mkError e).HasError = true ∧
      (mkError e).GetValue c i = .error .nullDeref ∧
      ∀ msg, (mkError e).GetValue c i ≠ .error (.invalidInput msg) := by
  refine ⟨rfl, rfl, ?_⟩
  intro msg h
  exact QErr.noConfusion (Except.error.inj h)

/-- C5: on a result with `HasError()` true, `getContents()` returns an empty
matrix and raises no error. -/
theorem C5_getContents_on_error_is_empty (r : MaterializedQueryResult)
    (h : r.HasError = true) : r.getContents = .ok [] := by
  rw [MaterializedQueryResult.getContents, success_eq_false r h]
  rfl

/-- C5 witness: the error result of the spec's §8 scenario. -/
theorem C5_witness :
    (mkError "division by zero").getContents = .ok [] :=
  C5_getContents_on_error_is_empty (mkError "division by zero") rfl

/-- C7: `Fetch()` returns exactly what `FetchRaw()` returns (a thin alias),
and on a result with `HasError()` true, `FetchRaw()` fails with an
invalid-input error whose message is the fixed prefix followed by the
underlying error text. -/
theorem C7_fetch_alias_and_error (r : MaterializedQueryResult) :
    r.Fetch = r.FetchRaw ∧
      (r.HasError = true →
        r.FetchRaw = .error (.invalidInput (fetchErrorMsg r.GetError)) ∧
          fetchErrorMsg r.GetError =
            "Attempting to fetch from an unsuccessful query result\nError: "
              ++ r.GetError) := by
  refine ⟨rfl, fun h => ⟨?_, rfl⟩⟩
  rw [MaterializedQueryResult.FetchRaw, h]
  rfl

/-- C7 witness: instantiated at a concrete error result. -/
theorem C7_witness :
    (mkError "boom").Fetch = (mkError "boom").FetchRaw ∧
      ((mkError "boom").HasError = true →
        (mkError "boom").FetchRaw =
            .error (.invalidInput (fetchErrorMsg (mkError "boom").GetError)) ∧
          fetchErrorMsg (mkError "boom").GetError =
            "Attempting to fetch from an unsuccessful query result\nError: "
              ++ (mkError "boom").GetError) :=
  C7_fetch_alias_and_error (mkError "boom")

/-- C8: on a result with `HasError()` true, `ToString()` returns exactly the
error text followed by a single newline; the outcome is the same whatever
the `collection` field holds, i.e. the error path never accesses the row
store. -/
theorem C8_toString_on_error (r : MaterializedQueryResult)
    (h : r.HasError = true) :
    r.ToString = .ok (r.GetError ++ "\n") ∧
      ∀ oc, MaterializedQueryResult.ToString { r with collection := oc } =
        .ok (r.GetError ++ "\n") := by
  have hs := success_eq_false r h
  constructor
  · rw [MaterializedQueryResult.ToString, hs]
    rfl
  · intro oc
    rw [MaterializedQueryResult.ToString]
    simp only [hs]
    rfl

/-- C8 witness: the §8 scenario error result. -/
theorem C8_witness :
    (mkError "division by zero").ToString =
        .ok ((mkError "division by zero").GetError ++ "\n") ∧
      ∀ oc, MaterializedQueryResult.ToString
          { mkError "division by zero" with collection := oc } =
        .ok ((mkError "division by zero").GetError ++ "\n") :=
  C8_toString_on_error (mkError "division by zero") rfl

/-- C9: the typed accessor `GetValue<T>(c, i)` returns the untyped
`GetValue(c, i)` narrowed through the signed 64-bit intermediate and then
cast to the target type (the cast embedded as an arbitrary
`cast : Int → α`), and propagates the untyped accessor's failure
unchanged. -/
theorem C9_typed_getValue_via_int64 {α : Type} (cast : Int → α)
    (r : MaterializedQueryResult) (c i : Nat) :
    (∀ v r1, r.GetValue c i = .ok (v, r1) →
        r.GetValueTyped cast c i = .ok (cast v.getInt64, r1)) ∧
      (∀ e, r.GetValue c i = .error e →
        r.GetValueTyped cast c i = .error e) := by
  constructor
  · intro v r1 h
    rw [MaterializedQueryResult.GetValueTyped, h]
  · intro e h
    rw [MaterializedQueryResult.GetValueTyped, h]

/-- C9 witness: at a concrete result holding BIGINT 42, with the identity
cast: the typed accessor returns 42 through the 64-bit intermediate. -/
theorem C9_witness :
    (∀ v r1, takenRes0.GetValue 0 0 = .ok (v, r1) →
        takenRes0.GetValueTyped (fun n => n) 0 0 = .ok (v.getInt64, r1)) ∧
      (∀ e, takenRes0.GetValue 0 0 = .error e →
        takenRes0.GetValueTyped (fun n => n) 0 0 = .error e) :=
  C9_typed_getValue_via_int64 (fun n => n) takenRes0 0 0

/-- C10: `RowCount()` never fails: it is total, returns the store's count
when the store is present, and returns 0 when the store is absent — in
particular on an error-constructed result and on the post state of a
successful `TakeCollection()`. -/
theorem C10_rowCount_total (r : MaterializedQueryResult) :
    (∀ c, r.collection = some c → r.RowCount = c.Count) ∧
      (r.collection = none → r.RowCount = 0) ∧
      (∀ e, (mkError e).RowCount = 0) ∧
      (∀ coll r1, r.TakeCollection = .ok (coll, r1) → r1.RowCount = 0) := by
  refine ⟨?_, ?_, fun e => rfl, ?_⟩
  · intro c hc
    rw [MaterializedQueryResult.RowCount, hc]
  · intro hc
    rw [MaterializedQueryResult.RowCount, hc]
  · intro coll r1 h
    obtain ⟨-, -, h3⟩ := takeCollection_ok r coll r1 h
    rw [h3, MaterializedQueryResult.RowCount]

/-- The behavior of every data-accessing operation on a successful result
whose store is absent: the `Collection()`-gated ones fail with the
internal error, the direct-dereference ones crash, and `GetValue` is
decided by whether the row view was cached. -/
theorem ops_on_missing_store (r1 : MaterializedQueryResult)
    (hs : r1.success = true) (hc : r1.collection = none) :
    r1.Collection = .error (.internal missingCollectionMsg) ∧
      r1.TakeCollection = .error (.internal missingCollectionMsg) ∧
      r1.getContents = .error (.internal missingCollectionMsg) ∧
      r1.FetchRaw = .error .nullDeref ∧
      r1.Fetch = .error .nullDeref ∧
      (r1.row_collection = none →
        ∀ c i, r1.GetValue c i = .error .nullDeref) ∧
      (∀ rc, r1.row_collection = some rc →
        ∀ c i, r1.GetValue c i = .ok (rowsGetValue rc c i, r1)) := by
  refine ⟨?_, ?_, ?_, ?_, ?_, ?_, ?_⟩
  · simp [MaterializedQueryResult.Collection,
      MaterializedQueryResult.HasError, hs, hc]
  · simp [MaterializedQueryResult.TakeCollection,
      MaterializedQueryResult.HasError, hs, hc]
  · simp [MaterializedQueryResult.getContents,
      MaterializedQueryResult.Collection,
      MaterializedQueryResult.HasError, hs, hc]
  · simp [MaterializedQueryResult.FetchRaw,
      MaterializedQueryResult.HasError, hs, hc]
  · simp [MaterializedQueryResult.Fetch, MaterializedQueryResult.FetchRaw,
      MaterializedQueryResult.HasError, hs, hc]
  · intro hrc c i
    simp [MaterializedQueryResult.GetValue, hrc, hc]
  · intro rc hrc c i
    simp [MaterializedQueryResult.GetValue, hrc]

/-- C2 counterexample: the claim states that after one successful
`TakeCollection()`, `GetValue(column, index)` fails.  On the concrete
result `takenRes0`, a first `GetValue` call caches the random-access row
view (state `takenRes1`); `TakeCollection()` then succeeds (state
`takenRes2`); but the next `GetValue` call still succeeds, returning
BIGINT 42 from the cached view — it does not fail. -/
theorem C2_counterexample :
    takenRes0.GetValue 0 0 =
        .ok (⟨.BIGINT, .pint 42⟩, takenRes1) ∧
      takenRes1.TakeCollection = .ok (takenColl, takenRes2) ∧
      takenRes2.GetValue 0 0 = .ok (⟨.BIGINT, .pint 42⟩, takenRes2) := by
  refine ⟨?_, ?_, ?_⟩ <;> decide

/-- C2 (amended): after one successful `TakeCollection()`, a second call to
`Collection()` or `TakeCollection()` fails with the internal
(store-absent) error, and `getContents()` fails with the same internal
error; `Fetch()`/`FetchRaw()` dereference the absent store (the crash
outcome, not a typed error); and `GetValue(column, index)` likewise
dereferences the absent store if the random-access row view has not been
cached, but still succeeds from the cached view if an earlier `GetValue`
built it. -/
theorem C2_after_takeCollection (r : MaterializedQueryResult)
    (coll : ColumnDataCollection) (r1 : MaterializedQueryResult)
    (h : r.TakeCollection = .ok (coll, r1)) :
    r1.Collection = .error (.internal missingCollectionMsg) ∧
      r1.TakeCollection = .error (.internal missingCollectionMsg) ∧
      r1.getContents = .error (.internal missingCollectionMsg) ∧
      r1.FetchRaw = .error .nullDeref ∧
      r1.Fetch = .error .nullDeref ∧
      (r1.row_collection = none →
        ∀ c i, r1.GetValue c i = .error .nullDeref) ∧
      (∀ rc, r1.row_collection = some rc →
        ∀ c i, r1.GetValue c i = .ok (rowsGetValue rc c i, r1)) := by
  obtain ⟨hs, hc, hr⟩ := takeCollection_ok r coll r1 h
  subst hr
  exact ops_on_missing_store _ hs rfl

/-- C2 witness: instantiated at `wTakeRes`, whose `TakeCollection()`
succeeds, giving the store-absent state `wTakeRes1`. -/
theorem C2_witness :
    wTakeRes1.Collection = .error (.internal missingCollectionMsg) ∧
      wTakeRes1.TakeCollection = .error (.internal missingCollectionMsg) ∧
      wTakeRes1.getContents = .error (.internal missingCollectionMsg) ∧
      wTakeRes1.FetchRaw = .error .nullDeref ∧
      wTakeRes1.Fetch = .error .nullDeref ∧
      (wTakeRes1.row_collection = none →
        ∀ c i, wTakeRes1.GetValue c i = .error .nullDeref) ∧
      (∀ rc, wTakeRes1.row_collection = some rc →
        ∀ c i, wTakeRes1.GetValue c i =
          .ok (rowsGetValue rc c i, wTakeRes1)) :=
  C2_after_takeCollection wTakeRes wTakeColl wTakeRes1 (by decide)

/-- C6: on a successful result owning store `R` whose row view is not yet
built, `GetValue(c, i)` succeeds; the returned value equals the i-th
row's c-th cell of `R` as observed by a full scan (the concatenation of
the scan batches, `R.chunks.flatten`); the call builds the random-access
row view from the store's full row set and caches it; a second call with
the same arguments returns the equal value and the unchanged state; and
any later call is served from the cached view alone, whatever the
`collection` field then holds. -/
theorem C6_getValue_matches_scan (r : MaterializedQueryResult)
    (coll : ColumnDataCollection) (h1 : r.success = true)
    (h2 : r.collection = some coll) (h3 : r.row_collection = none)
    (c i : Nat) :
    ∃ v r1, r.GetValue c i = .ok (v, r1) ∧
      r1 = { r with row_collection := some coll.Rows } ∧
      (∀ (hi : i < coll.chunks.flatten.length)
        (hc : c < (coll.chunks.flatten.get ⟨i, hi⟩).length),
        v = (coll.chunks.flatten.get ⟨i, hi⟩).get ⟨c, hc⟩) ∧
      r1.GetValue c i = .ok (v, r1) ∧
      (∀ oc, MaterializedQueryResult.GetValue { r1 with collection := oc }
          c i = .ok (v, { r1 with collection := oc })) := by
  refine ⟨rowsGetValue coll.Rows c i,
    { r with row_collection := some coll.Rows }, ?_, rfl, ?_, ?_, ?_⟩
  · simp [MaterializedQueryResult.GetValue, h3, h2,
      ColumnDataCollection.GetRows]
  · intro hi hc
    rw [rowsGetValue, rowGet]
    rw [show coll.Rows = coll.chunks.flatten from rfl]
    rw [getD_eq_get _ _ hi, getD_eq_get _ _ hc]
  · simp [MaterializedQueryResult.GetValue]
  · intro oc
    simp [MaterializedQueryResult.GetValue]

/-- C6 witness: instantiated at the fresh result `takenRes0` and cell
(0, 0). -/
theorem C6_witness :
    ∃ v r1, takenRes0.GetValue 0 0 = .ok (v, r1) ∧
      r1 = { takenRes0 with row_collection := some takenColl.Rows } ∧
      (∀ (hi : 0 < takenColl.chunks.flatten.length)
        (hc : 0 < (takenColl.chunks.flatten.get ⟨0, hi⟩).length),
        v = (takenColl.chunks.flatten.get ⟨0, hi⟩).get ⟨0, hc⟩) ∧
      r1.GetValue 0 0 = .ok (v, r1) ∧
      (∀ oc, MaterializedQueryResult.GetValue { r1 with collection := oc }
          0 0 = .ok (v, { r1 with collection := oc })) :=
  C6_getValue_matches_scan takenRes0 takenColl rfl rfl rfl 0 0

/-- C3: on a successful result owning its store, `getContents()` succeeds
with a matrix of exactly `Count()` rows, each of exactly `ColumnCount()`
slots in store column order, and every in-range slot is the spec's
first-match narrowing (`specConvertCell`) of the corresponding source
cell: absent for null, Bool/BigInt/UBigInt/Int/UInt/Double/String by
logical type, textual rendering for everything else. -/
theorem C3_getContents_shape_and_mapping (r : MaterializedQueryResult)
    (coll : ColumnDataCollection) (h1 : r.success = true)
    (h2 : r.collection = some coll) :
    ∃ m, r.getContents = .ok m ∧
      m.length = coll.Count ∧
      (∀ rowOut ∈ m, rowOut.length = coll.ColumnCount) ∧
      (∀ i j, i < coll.Count → j < coll.ColumnCount →
        (m.getD i []).getD j none =
          specConvertCell (rowGet (coll.Rows.getD i []) j)) := by
  have hE := hasError_eq_false r h1
  refine ⟨coll.Rows.map (fun row =>
    (List.range coll.ColumnCount).map (fun col_idx =>
      convertCell (rowGet row col_idx))), ?_, ?_, ?_, ?_⟩
  · rw [MaterializedQueryResult.getContents, h1,
      MaterializedQueryResult.Collection, hE]
    rw [h2]
    rfl
  · rw [List.length_map]
    rfl
  · intro rowOut hmem
    obtain ⟨row, -, hrow⟩ := List.mem_map.mp hmem
    rw [← hrow, List.length_map, List.length_range]
  · intro i j hi hj
    rw [getD_map_of_lt _ _ _ hi []]
    rw [getD_map_of_lt _ _ _ (by rw [List.length_range]; exact hj) 0]
    rw [getD_range_of_lt _ _ hj, convertCell_eq_spec]

/-- C3 witness: instantiated at `contentsRes`, whose store holds one row
exercising every switch branch and one all-null row. -/
theorem C3_witness :
    ∃ m, contentsRes.getContents = .ok m ∧
      m.length = contentsColl.Count ∧
      (∀ rowOut ∈ m, rowOut.length = contentsColl.ColumnCount) ∧
      (∀ i j, i < contentsColl.Count → j < contentsColl.ColumnCount →
        (m.getD i []).getD j none =
          specConvertCell (rowGet (contentsColl.Rows.getD i []) j)) :=
  C3_getContents_shape_and_mapping contentsRes contentsColl rfl rfl

/-- Writing a result object's cursor fields with their current values is the
identity. -/
theorem mqr_set_eq (r : MaterializedQueryResult)
    (h3 : r.scan_initialized = true) (s : ColumnDataScanState)
    (h4 : r.scan_state = s) :
    ({ r with scan_initialized := true, scan_state := s } :
      MaterializedQueryResult) = r := by
  cases r
  simp_all

/-- A `FetchRaw()` call on an exhausted scan returns the no-value signal and
leaves the state unchanged. -/
theorem fetchRaw_exhausted (r : MaterializedQueryResult)
    (coll : ColumnDataCollection) (h1 : r.success = true)
    (h2 : r.collection = some coll) (h3 : r.scan_initialized = true)
    (h4 : coll.chunks.length ≤ r.scan_state.chunk_index) :
    r.FetchRaw = .ok (none, r) := by
  obtain ⟨su, er, na, ty, co, rc, ss, si⟩ := r
  have hn : coll.chunks[ss.chunk_index]? = none := List.getElem?_eq_none h4
  have hscan : coll.Scan ss = ([], ss) := by
    rw [ColumnDataCollection.Scan, hn]
  simp_all [MaterializedQueryResult.FetchRaw,
    MaterializedQueryResult.HasError]

/-- Every `FetchRaw()` call after exhaustion keeps returning the no-value
signal with the state unchanged. -/
theorem fetchN_exhausted (m : Nat) (r : MaterializedQueryResult)
    (coll : ColumnDataCollection) (h1 : r.success = true)
    (h2 : r.collection = some coll) (h3 : r.scan_initialized = true)
    (h4 : coll.chunks.length ≤ r.scan_state.chunk_index) :
    fetchN r m = (List.replicate m none, r) := by
  induction m with
  | zero => rfl
  | succ n ih =>
    rw [fetchN, fetchRaw_exhausted r coll h1 h2 h3 h4]
    simp [ih, List.replicate_succ]

/-- A `FetchRaw()` call on a started scan with a (nonempty) batch remaining
delivers that batch and advances the cursor by one. -/
theorem fetchRaw_step (r : MaterializedQueryResult)
    (coll : ColumnDataCollection) (ch : List Row) (h1 : r.success = true)
    (h2 : r.collection = some coll) (h3 : r.scan_initialized = true)
    (hc : coll.chunks[r.scan_state.chunk_index]? = some ch)
    (hne : ch ≠ []) :
    r.FetchRaw = .ok (some ch,
      { r with scan_initialized := true,
               scan_state := ⟨r.scan_state.chunk_index + 1⟩ }) := by
  have hlen : ch.length ≠ 0 := fun h0 => hne (List.eq_nil_of_length_eq_zero h0)
  simp [MaterializedQueryResult.FetchRaw, MaterializedQueryResult.HasError,
    h1, h2, h3, ColumnDataCollection.Scan, hc, hlen]

/-- The full trace of a started scan sitting at position `i` with the
(nonempty) batches `rest` remaining: it delivers exactly those batches in
order, then the no-value signal on every further call, with the cursor
parked one past the last batch and never reset. -/
theorem fetchN_scanning (rest : List (List Row)) :
    ∀ (i : Nat) (r : MaterializedQueryResult)
      (coll : ColumnDataCollection), r.success = true →
      r.collection = some coll → r.scan_initialized = true →
      r.scan_state = ⟨i⟩ → coll.chunks.drop i = rest →
      (∀ ch ∈ rest, ch ≠ []) → ∀ m,
      fetchN r (rest.length + m) =
        (rest.map some ++ List.replicate m none,
          { r with scan_initialized := true,
                   scan_state := ⟨i + rest.length⟩ }) := by
  induction rest with
  | nil =>
    intro i r coll h1 h2 h3 h4 h5 _ m
    have hle : coll.chunks.length ≤ i := by
      rw [← List.drop_eq_nil_iff, h5]
    rw [mqr_set_eq r h3 ⟨i + List.length []⟩ (by simp [h4])]
    simpa using fetchN_exhausted m r coll h1 h2 h3 (by rw [h4]; exact hle)
  | cons ch rest ih =>
    intro i r coll h1 h2 h3 h4 h5 hwf m
    have hc : coll.chunks[i]? = some ch := by
      have := List.getElem?_drop coll.chunks i 0
      rw [h5] at this
      simpa using this.symm
    have hstep := fetchRaw_step r coll ch h1 h2 h3 (by rw [h4]; exact hc)
      (hwf ch (List.mem_cons_self ch rest))
    have harith : (ch :: rest).length + m = (rest.length + m) + 1 := by
      simp
      omega
    have hdrop : coll.chunks.drop (i + 1) = rest := by
      rw [← List.tail_drop, h5]
      rfl
    have hrec := ih (i + 1)
      ({ r with scan_initialized := true,
                scan_state := ⟨r.scan_state.chunk_index + 1⟩ })
      coll h1 h2 rfl (by rw [h4]) hdrop
      (fun c hm => hwf c (List.mem_cons_of_mem ch hm)) m
    rw [harith]
    simp only [fetchN, hstep, hrec]
    simp [h4]
    omega

/-- The first `FetchRaw()` call on an unstarted scan behaves exactly as on a
freshly initialized cursor at position 0. -/
theorem fetchRaw_fresh (r : MaterializedQueryResult)
    (h3 : r.scan_initialized = false) :
    r.FetchRaw = MaterializedQueryResult.FetchRaw
      { r with scan_initialized := true, scan_state := ⟨0⟩ } := by
  obtain ⟨su, er, na, ty, co, rc, ss, si⟩ := r
  cases si with
  | true => simp at h3
  | false => rfl

/-- A `FetchRaw()` call on a successful result that owns its store never
raises an error. -/
theorem fetchRaw_no_error (r : MaterializedQueryResult)
    (coll : ColumnDataCollection) (h1 : r.success = true)
    (h2 : r.collection = some coll) (e : QErr) : r.FetchRaw ≠ .error e := by
  intro hF
  simp only [MaterializedQueryResult.FetchRaw,
    MaterializedQueryResult.HasError, h1, h2, Bool.not_true,
    Bool.false_eq_true, if_false] at hF
  split at hF <;> split at hF <;> exact Except.noConfusion hF

/-- A nonempty trace of `FetchRaw()` calls on an unstarted scan over an
owned store equals the trace from the freshly initialized cursor. -/
theorem fetchN_fresh (r : MaterializedQueryResult)
    (coll : ColumnDataCollection) (h1 : r.success = true)
    (h2 : r.collection = some coll) (h3 : r.scan_initialized = false)
    (n : Nat) :
    fetchN r (n + 1) = fetchN
      { r with scan_initialized := true, scan_state := ⟨0⟩ } (n + 1) := by
  rw [fetchN, fetchN, fetchRaw_fresh r h3]
  cases hF : MaterializedQueryResult.FetchRaw
      { r with scan_initialized := true, scan_state := ⟨0⟩ } with
  | ok p => rfl
  | error e => exact absurd hF (fetchRaw_no_error
      { r with scan_initialized := true, scan_state := ⟨0⟩ } coll h1 h2 e)

/-- C4: on a fresh successful result whose store holds its rows in the
(nonempty) batches `chunks`, any run of `chunks.length + (m + 1)`
`FetchRaw()` calls delivers exactly the batches in store order — whose
concatenation is the full row sequence and whose sizes sum to exactly
`Count()` — followed by exactly `m + 1` no-value returns; no call raises
an error (a failed call would cut the trace short), and every
post-exhaustion call leaves the cursor parked at `chunks.length`,
never re-initializing it. -/
theorem C4_fetchRaw_stream (r : MaterializedQueryResult)
    (coll : ColumnDataCollection) (h1 : r.success = true)
    (h2 : r.collection = some coll) (h3 : r.scan_initialized = false)
    (hwf : ∀ ch ∈ coll.chunks, ch ≠ []) (m : Nat) :
    fetchN r (coll.chunks.length + (m + 1)) =
        (coll.chunks.map some ++ List.replicate (m + 1) none,
          { r with scan_initialized := true,
                   scan_state := ⟨coll.chunks.length⟩ }) ∧
      coll.chunks.flatten = coll.Rows ∧
      (coll.chunks.map List.length).sum = coll.Count := by
  refine ⟨?_, rfl, ?_⟩
  · have harith : coll.chunks.length + (m + 1) =
        (coll.chunks.length + m) + 1 := by omega
    rw [harith, fetchN_fresh r coll h1 h2 h3, ← harith]
    have := fetchN_scanning coll.chunks 0
      ({ r with scan_initialized := true, scan_state := ⟨0⟩ })
      coll h1 h2 rfl rfl rfl hwf (m + 1)
    rw [this]
    simp
  · rw [ColumnDataCollection.Count, ColumnDataCollection.Rows,
      List.length_flatten]

/-- C4 witness: at the fresh result `scanRes` over a store with batches of
sizes two and one, with one extra post-exhaustion call. -/
theorem C4_witness :
    fetchN scanRes (scanColl.chunks.length + (0 + 1)) =
        (scanColl.chunks.map some ++ List.replicate (0 + 1) none,
          { scanRes with scan_initialized := true,
                         scan_state := ⟨scanColl.chunks.length⟩ }) ∧
      scanColl.chunks.flatten = scanColl.Rows ∧
      (scanColl.chunks.map List.length).sum = scanColl.Count :=
  C4_fetchRaw_stream scanRes scanColl rfl rfl rfl (by decide) 0

/-- C10 witness: at a concrete successful result, covering the
store-present case and the post-`TakeCollection` case. -/
theorem C10_witness :
    (∀ c, wTakeRes.collection = some c → wTakeRes.RowCount = c.Count) ∧
      (wTakeRes.collection = none → wTakeRes.RowCount = 0) ∧
      (∀ e, (mkError e).RowCount = 0) ∧
      (∀ coll r1, wTakeRes.TakeCollection = .ok (coll, r1) →
        r1.RowCount = 0) :=
  C10_rowCount_total wTakeRes

end DuckDB
